import Mathlib

/-!
Shallow embedding of `cmsis_svd/parser.py`: the SVD document-tree parsing
pipeline (`_get_text`, `_get_int`, `_parse_enumerated_value`, `_parse_field`,
`_parse_register`, `_parse_address_block`, `_parse_interrupt`,
`_parse_peripheral`, `_parse_device`) and the two post-processing transforms
(`duplicate_array_of_registers` / `duplicate_arrays_of_registers` and
`remove_reserved`).

Python exceptions (ValueError from `int()`, AttributeError, TypeError from
`None` arithmetic, AssertionError, IndexError) are modelled uniformly as
`Except`-errors; where an in-place mutation has already happened when the
exception escapes, the error value carries the mutated state, matching the
state the Python caller observes after the exception propagates.
-/

mutual
/-- An XML element as exposed by `xml.etree.ElementTree`: a tag, optional
text content, and the ordered sequence of child elements.  The children are
stored in the specialised `ElementList` (isomorphic to `List Element`) so
that recursion over the tree is structural and reduces in the kernel. -/
inductive Element where
  | mk (tag : String) (text : Option String) (children : ElementList)
inductive ElementList where
  | nil
  | cons (head : Element) (tail : ElementList)
end

def ElementList.toList : ElementList → List Element
  | .nil => []
  | .cons e rest => e :: rest.toList

def ElementList.ofList : List Element → ElementList
  | [] => .nil
  | e :: rest => .cons e (ElementList.ofList rest)

/-- Convenience constructor taking the children as a plain list. -/
def elemOf (tag : String) (text : Option String) (children : List Element) : Element :=
  Element.mk tag text (ElementList.ofList children)

def Element.tag : Element → String
  | .mk t _ _ => t

def Element.text : Element → Option String
  | .mk _ t _ => t

def Element.children : Element → List Element
  | .mk _ _ c => c.toList

/-- `node.find(tag)` for a plain tag path: the first direct child whose tag
matches. -/
def findChild (e : Element) (tag : String) : Option Element :=
  e.children.find? (fun c => c.tag == tag)

/-- `node.findall('./t1/t2')`: for each direct child tagged `t1` in document
order, its direct children tagged `t2`, concatenated. -/
def findallPath2 (e : Element) (t1 t2 : String) : List Element :=
  (e.children.filter (fun c => c.tag == t1)).flatMap
    (fun c => c.children.filter (fun d => d.tag == t2))

mutual
/-- All strict descendants of an element, in document (preorder) order. -/
def descendantsOf : Element → List Element
  | .mk _ _ cs => forestNodes cs
/-- All nodes of a forest (each root followed by its descendants), in
document (preorder) order. -/
def forestNodes : ElementList → List Element
  | .nil => []
  | .cons e rest => e :: (descendantsOf e ++ forestNodes rest)
end

/-- `node.findall('.//tag')`: all strict descendants with the given tag, in
document (preorder) order. -/
def findallDesc (e : Element) (tag : String) : List Element :=
  (descendantsOf e).filter (fun c => c.tag == tag)

/-- `_get_text(node, tag, default)`: `node.find(tag).text`, resolving a
missing child (AttributeError on `None.text`) to `default`.  A child that is
present but has no text yields `none`, not the default, because the Python
attribute access succeeds and returns `None`. -/
def get_text (e : Element) (tag : String) (default : Option String) : Option String :=
  match findChild e tag with
  | none => default
  | some c => c.text

/-- Python `str.lower()` (ASCII-relevant part). -/
def pyLower (s : String) : String :=
  ⟨s.data.map Char.toLower⟩

def startsWithList : List Char → List Char → Bool
  | [], _ => true
  | _ :: _, [] => false
  | a :: as, b :: bs => a == b && startsWithList as bs

/-- `needle in hay` on character lists (Python `in` for substrings). -/
def containsList (needle : List Char) : List Char → Bool
  | [] => needle.isEmpty
  | h :: t => startsWithList needle (h :: t) || containsList needle t

/-- `'reserved' in s.lower()`. -/
def hasReservedSub (s : String) : Bool :=
  containsList "reserved".data (pyLower s).data

/-- The whitespace characters stripped by Python `int(str, base)`. -/
def isPySpace (c : Char) : Bool :=
  c = ' ' || c = '\t' || c = '\n' || c = '\r' || c = '\x0b' || c = '\x0c'

def stripWs (cs : List Char) : List Char :=
  ((cs.dropWhile isPySpace).reverse.dropWhile isPySpace).reverse

/-- Value of a character as a digit (0-15), as accepted by Python `int`. -/
def digitVal (c : Char) : Option Nat :=
  if '0' ≤ c ∧ c ≤ '9' then some (c.toNat - '0'.toNat)
  else if 'a' ≤ c ∧ c ≤ 'f' then some (c.toNat - 'a'.toNat + 10)
  else if 'A' ≤ c ∧ c ≤ 'F' then some (c.toNat - 'A'.toNat + 10)
  else none

def digitsValAux (base : Nat) (acc : Nat) : List Char → Option Nat
  | [] => some acc
  | c :: cs =>
      match digitVal c with
      | some v => if v < base then digitsValAux base (base * acc + v) cs else none
      | none => none

/-- Positional value of a nonempty all-valid digit string in the given base;
`none` on an empty string or any invalid digit. -/
def digitsVal (base : Nat) (cs : List Char) : Option Nat :=
  if cs.isEmpty then none else digitsValAux base 0 cs

/-- Python `int(s, 16)` / `int(s, 2)` tolerate a matching `0x`/`0X` (resp.
`0b`/`0B`) radix mark after the optional sign. -/
def dropRadixMark (base : Nat) (cs : List Char) : List Char :=
  match base, cs with
  | 16, '0' :: c :: rest => if c = 'x' || c = 'X' then rest else '0' :: c :: rest
  | 2, '0' :: c :: rest => if c = 'b' || c = 'B' then rest else '0' :: c :: rest
  | _, _ => cs

/-- Python `int(s, base)` for bases 2, 10, 16: strip ASCII whitespace, an
optional sign, an optional radix mark, then a nonempty digit string.
(Underscore digit grouping, accepted by CPython since 3.6, is not modelled;
no input relevant here uses it.) -/
def pyIntOfString (s : String) (base : Nat) : Option Int :=
  match stripWs s.data with
  | '+' :: rest => (digitsVal base (dropRadixMark base rest)).map (fun n => (n : Int))
  | '-' :: rest => (digitsVal base (dropRadixMark base rest)).map (fun n => -(n : Int))
  | cs => (digitsVal base (dropRadixMark base cs)).map (fun n => (n : Int))

/-- `text_value.lower().startswith('0x')`. -/
def startsWith0xLower (s : String) : Bool :=
  match s.data with
  | a :: b :: _ => a.toLower == '0' && b.toLower == 'x'
  | _ => false

/-- The three-encoding integer parse inside `_get_int`: `0x`/`0X` prefix →
base 16 on the characters after the prefix; leading `#` → every lowercase
`'x'` replaced by `'0'` (the Freescale don't-care marker), then base 2 on the
characters after the `#`; otherwise base 10.  `none` is the fatal
`ValueError`. -/
def parseSVDInt (s : String) : Option Int :=
  if startsWith0xLower s then
    pyIntOfString ⟨s.data.drop 2⟩ 16
  else if s.data.take 1 = ['#'] then
    pyIntOfString ⟨(s.data.map (fun c => if c = 'x' then '0' else c)).drop 1⟩ 2
  else
    pyIntOfString s 10

/-- `_get_int(node, tag, default)`: route the extracted text through the
three-encoding parse unless it equals the sentinel default.  All call sites
in the source pass `default=None`; a present-but-textless child compared
against a non-`None` default would hit `None.lower()` (AttributeError), kept
here as an error for faithfulness. -/
def get_int (e : Element) (tag : String) (default : Option Int) : Except Unit (Option Int) :=
  match findChild e tag with
  | none => Except.ok default
  | some c =>
      match c.text with
      | none =>
          match default with
          | none => Except.ok none
          | some _ => Except.error ()
      | some s =>
          match parseSVDInt s with
          | some n => Except.ok (some n)
          | none => Except.error ()

structure SVDEnumeratedValue where
  name : Option String
  description : Option String
  value : Option Int
deriving DecidableEq, Repr

structure SVDField where
  name : Option String
  description : Option String
  bit_offset : Option Int
  bit_width : Option Int
  access : Option String
  enumerated_values : Option (List SVDEnumeratedValue)
deriving DecidableEq, Repr

structure SVDRegister where
  name : Option String
  description : Option String
  address_offset : Option Int
  size : Option Int
  access : Option String
  reset_value : Option Int
  reset_mask : Option Int
  fields : List SVDField
  dim : Option Int
  dim_increment : Option Int
  dim_index : Option (List String)
deriving DecidableEq, Repr

structure SVDAddressBlock where
  offset : Option Int
  size : Option Int
  usage : Option String
deriving DecidableEq, Repr

structure SVDInterrupt where
  name : Option String
  value : Option Int
deriving DecidableEq, Repr

structure SVDPeripheral where
  name : Option String
  description : Option String
  prepend_to_name : Option String
  base_address : Option Int
  address_block : Option SVDAddressBlock
  interrupts : List SVDInterrupt
  registers : List SVDRegister
deriving DecidableEq, Repr

structure SVDDevice where
  vendor : Option String
  vendor_id : Option String
  name : Option String
  version : Option String
  description : Option String
  cpu : Option Unit
  address_unit_bits : Option Int
  width : Option Int
  peripherals : List SVDPeripheral
deriving DecidableEq, Repr

instance exceptDecEq [DecidableEq ε] [DecidableEq α] : DecidableEq (Except ε α) := fun a b =>
  match a, b with
  | Except.ok x, Except.ok y =>
      if h : x = y then isTrue (by rw [h]) else isFalse (by simp [h])
  | Except.ok _, Except.error _ => isFalse (by simp)
  | Except.error _, Except.ok _ => isFalse (by simp)
  | Except.error x, Except.error y =>
      if h : x = y then isTrue (by rw [h]) else isFalse (by simp [h])

/-- Sequential effectful map over a list: stops at the first error, exactly
like the Python append loops that raise mid-iteration. -/
def mapME (f : α → Except ε β) : List α → Except ε (List β)
  | [] => Except.ok []
  | a :: as =>
      match f a with
      | Except.error err => Except.error err
      | Except.ok b =>
          match mapME f as with
          | Except.error err => Except.error err
          | Except.ok bs => Except.ok (b :: bs)

def parse_enumerated_value (e : Element) : Except Unit SVDEnumeratedValue :=
  match get_int e "value" none with
  | Except.error err => Except.error err
  | Except.ok v =>
      Except.ok
        { name := get_text e "name" none
          description := get_text e "description" none
          value := v }

def digitsToNat (ds : List Char) : Nat :=
  ds.foldl (fun a c => 10 * a + (c.toNat - '0'.toNat)) 0

/-- One anchored attempt of the regex `\[([0-9]+):([0-9]+)\]`: an opening
bracket, a maximal nonempty digit run, a colon, a maximal nonempty digit run,
a closing bracket. -/
def matchBitRangeAt : List Char → Option (Nat × Nat)
  | '[' :: rest =>
      let ds1 := rest.takeWhile Char.isDigit
      let r1 := rest.dropWhile Char.isDigit
      if ds1.isEmpty then none
      else
        match r1 with
        | ':' :: rest2 =>
            let ds2 := rest2.takeWhile Char.isDigit
            let r2 := rest2.dropWhile Char.isDigit
            if ds2.isEmpty then none
            else
              match r2 with
              | ']' :: _ => some (digitsToNat ds1, digitsToNat ds2)
              | _ => none
        | _ => none
  | _ => none

def searchBitRangeAux : List Char → Option (Nat × Nat)
  | [] => none
  | c :: rest =>
      match matchBitRangeAt (c :: rest) with
      | some p => some p
      | none => searchBitRangeAux rest

/-- `re.search('\[([0-9]+):([0-9]+)\]', s)` with both groups converted by
`int`: the leftmost occurrence of a `[msb:lsb]` token. -/
def searchBitRange (s : String) : Option (Nat × Nat) :=
  searchBitRangeAux s.data

/-- The bit-range priority chain of `_parse_field`: a present `bitRange`
text wins (no regex match is an AttributeError on `m.group`), else a present
`msb` forces the `msb`/`lsb` notation (`lsb` absent is a TypeError in
`msb - lsb`), else the already-extracted `bitOffset`/`bitWidth` pass through
verbatim. -/
def resolveBits (bit_range : Option String) (bo bw msb lsb : Option Int) :
    Except Unit (Option Int × Option Int) :=
  match bit_range with
  | some s =>
      match searchBitRange s with
      | none => Except.error ()
      | some (m, l) => Except.ok (some ((l : Int)), some (1 + ((m : Int) - (l : Int))))
  | none =>
      match msb with
      | some m =>
          match lsb with
          | none => Except.error ()
          | some l => Except.ok (some l, some (1 + (m - l)))
      | none => Except.ok (bo, bw)

/-- The `SVDField` record built at the end of `_parse_field`: textual
attributes from the node, the resolved bit position, and the gathered
enumerated values with an empty collection normalised to absent
(`enumerated_values or None`). -/
def fieldRecord (e : Element) (bo2 bw2 : Option Int) (evs : List SVDEnumeratedValue) : SVDField :=
  { name := get_text e "name" none
    description := get_text e "description" none
    bit_offset := bo2
    bit_width := bw2
    access := get_text e "access" none
    enumerated_values := if evs.isEmpty then none else some evs }

def parse_field (e : Element) : Except Unit SVDField :=
  match mapME parse_enumerated_value (findallPath2 e "enumeratedValues" "enumeratedValue") with
  | Except.error err => Except.error err
  | Except.ok evs =>
      match get_int e "bitOffset" none with
      | Except.error err => Except.error err
      | Except.ok bo =>
          match get_int e "bitWidth" none with
          | Except.error err => Except.error err
          | Except.ok bw =>
              match get_int e "msb" none with
              | Except.error err => Except.error err
              | Except.ok msb =>
                  match get_int e "lsb" none with
                  | Except.error err => Except.error err
                  | Except.ok lsb =>
                      match resolveBits (get_text e "bitRange" none) bo bw msb lsb with
                      | Except.error err => Except.error err
                      | Except.ok (bo2, bw2) => Except.ok (fieldRecord e bo2 bw2 evs)

def parse_register (e : Element) : Except Unit SVDRegister :=
  match mapME parse_field (findallDesc e "field") with
  | Except.error err => Except.error err
  | Except.ok fields =>
      let dim_index := (get_text e "dimIndex" none).map (fun s => s.splitOn ",")
      match get_int e "addressOffset" none with
      | Except.error err => Except.error err
      | Except.ok ao =>
          match get_int e "size" none with
          | Except.error err => Except.error err
          | Except.ok sz =>
              match get_int e "resetValue" none with
              | Except.error err => Except.error err
              | Except.ok rv =>
                  match get_int e "resetMask" none with
                  | Except.error err => Except.error err
                  | Except.ok rm =>
                      match get_int e "dim" none with
                      | Except.error err => Except.error err
                      | Except.ok dim =>
                          match get_int e "dimIncrement" none with
                          | Except.error err => Except.error err
                          | Except.ok di =>
                              Except.ok
                                { name := get_text e "name" none
                                  description := get_text e "description" none
                                  address_offset := ao
                                  size := sz
                                  access := get_text e "access" none
                                  reset_value := rv
                                  reset_mask := rm
                                  fields := fields
                                  dim := dim
                                  dim_increment := di
                                  dim_index := dim_index }

def parse_address_block (e : Element) : Except Unit SVDAddressBlock :=
  match get_int e "offset" none with
  | Except.error err => Except.error err
  | Except.ok off =>
      match get_int e "size" none with
      | Except.error err => Except.error err
      | Except.ok sz =>
          Except.ok { offset := off, size := sz, usage := get_text e "usage" none }

def parse_interrupt (e : Element) : Except Unit SVDInterrupt :=
  match get_int e "value" none with
  | Except.error err => Except.error err
  | Except.ok v => Except.ok { name := get_text e "name" none, value := v }

def parse_peripheral (e : Element) : Except Unit SVDPeripheral :=
  match mapME parse_register (findallPath2 e "registers" "register") with
  | Except.error err => Except.error err
  | Except.ok regs =>
      match mapME parse_interrupt (e.children.filter (fun c => c.tag == "interrupt")) with
      | Except.error err => Except.error err
      | Except.ok ints =>
          match
            (match (e.children.filter (fun c => c.tag == "addressBlock")).head? with
             | none => Except.ok none
             | some ab =>
                 match parse_address_block ab with
                 | Except.error err => Except.error err
                 | Except.ok b => Except.ok (some b) :
               Except Unit (Option SVDAddressBlock)) with
          | Except.error err => Except.error err
          | Except.ok ablock =>
              match get_int e "baseAddress" none with
              | Except.error err => Except.error err
              | Except.ok ba =>
                  Except.ok
                    { name := get_text e "name" none
                      description := get_text e "description" none
                      prepend_to_name := get_text e "prependToName" none
                      base_address := ba
                      address_block := ablock
                      interrupts := ints
                      registers := regs }

def parse_device (e : Element) : Except Unit SVDDevice :=
  match mapME parse_peripheral (findallDesc e "peripheral") with
  | Except.error err => Except.error err
  | Except.ok ps =>
      match get_int e "addressUnitBits" none with
      | Except.error err => Except.error err
      | Except.ok aub =>
          match get_int e "width" none with
          | Except.error err => Except.error err
          | Except.ok w =>
              Except.ok
                { vendor := get_text e "vendor" none
                  vendor_id := get_text e "vendorID" none
                  name := get_text e "name" none
                  version := get_text e "version" none
                  description := get_text e "description" none
                  cpu := none
                  address_unit_bits := aub
                  width := w
                  peripherals := ps }

/-- Python `template % (arg : str)` for the name templates of register
arrays: characters are copied, `%%` renders a literal percent sign, and the
single `%s` conversion is substituted by `arg`.  A template with no
conversion ("not all arguments converted"), with a second conversion ("not
enough arguments"), with a trailing `%` or with a non-`s` conversion is a
TypeError/ValueError, modelled as `none`.  (Width/flag forms such as `%5s`
are not modelled; no input relevant here uses them.)  The Boolean records
whether the argument has been consumed yet. -/
def pyModGo (arg : List Char) : List Char → Bool → Option (List Char)
  | [], consumed => if consumed then some [] else none
  | '%' :: '%' :: rest, c => (pyModGo arg rest c).map (fun r => '%' :: r)
  | '%' :: 's' :: rest, c =>
      if c then none else (pyModGo arg rest true).map (fun r => arg ++ r)
  | '%' :: _, _ => none
  | ch :: rest, c => (pyModGo arg rest c).map (fun r => ch :: r)

def pyModS (template arg : String) : Option String :=
  (pyModGo arg.data template.data false).map (fun l => ⟨l⟩)

/-- The register record built for index `i` of an expanded array: the name
placeholder substituted, the address offset advanced by `i` strides, the
other attributes (description, size, access, reset_value, reset_mask and
the field list itself) taken from the template, and the array descriptor
cleared. -/
def mkExpandedReg (t : SVDRegister) (nm : String) (ao : Int) : SVDRegister :=
  { t with
    name := some nm
    address_offset := some ao
    dim := none
    dim_increment := none
    dim_index := none }

/-- One iteration of the `for i in range(input.dim)` body of
`duplicate_array_of_registers`: `input.name % input.dim_index[i]` (a `None`
name or a malformed template is a TypeError) and
`input.address_offset + input.dim_increment * i` (a `None` operand is a
TypeError). -/
def mkCopy (t : SVDRegister) (idx : List String) (i : Nat) : Except Unit SVDRegister :=
  match t.name with
  | none => Except.error ()
  | some nm =>
      match idx[i]? with
      | none => Except.error ()
      | some tok =>
          match pyModS nm tok with
          | none => Except.error ()
          | some newName =>
              match t.address_offset, t.dim_increment with
              | some off, some inc => Except.ok (mkExpandedReg t newName (off + inc * (i : Int)))
              | _, _ => Except.error ()

/-- `duplicate_array_of_registers(input)`: `assert(input.dim is
len(input.dim_index))` (an absent `dim_index` is a TypeError in `len`, an
absent or unequal `dim` an AssertionError — CPython's small-integer caching,
which makes `is` coincide with `==` on the values that occur here, is
abstracted as equality), then the copies for `i = 0 .. dim-1` in order.  On
any error the locally built output list is discarded, as the raised Python
exception discards it. -/
def duplicate_array_of_registers (t : SVDRegister) : Except Unit (List SVDRegister) :=
  match t.dim_index with
  | none => Except.error ()
  | some idx =>
      match t.dim with
      | none => Except.error ()
      | some d =>
          if d = (idx.length : Int) then mapME (mkCopy t idx) (List.range d.toNat)
          else Except.error ()

/-- The register-list loop of `duplicate_arrays_of_registers`: indices are
visited in descending order, so the recursion processes the tail (the higher
indices) first and then the head.  A register with `dim` present is removed
and its expansion inserted at its position; when the expansion raises, the
removal has already happened, so the error value carries the register list
as the caller observes it at that point. -/
def expandRegs : List SVDRegister → Except (List SVDRegister) (List SVDRegister)
  | [] => Except.ok []
  | r :: rs =>
      match expandRegs rs with
      | Except.error p => Except.error (r :: p)
      | Except.ok rs' =>
          if r.dim.isSome then
            match duplicate_array_of_registers r with
            | Except.error _ => Except.error rs'
            | Except.ok copies => Except.ok (copies ++ rs')
          else Except.ok (r :: rs')

/-- The peripheral loop of `duplicate_arrays_of_registers` (peripherals in
forward order); an error in one peripheral leaves the later ones
untouched. -/
def expandPeriphsLoop : List SVDPeripheral → Except (List SVDPeripheral) (List SVDPeripheral)
  | [] => Except.ok []
  | p :: ps =>
      match expandRegs p.registers with
      | Except.error rs => Except.error ({ p with registers := rs } :: ps)
      | Except.ok rs =>
          match expandPeriphsLoop ps with
          | Except.error ps' => Except.error ({ p with registers := rs } :: ps')
          | Except.ok ps' => Except.ok ({ p with registers := rs } :: ps')

/-- `duplicate_arrays_of_registers(input)`: expand every register array of
every peripheral in place; on success the mutated device is returned.  An
escaping exception is an error carrying the device as mutated so far. -/
def duplicate_arrays_of_registers (d : SVDDevice) : Except SVDDevice SVDDevice :=
  match expandPeriphsLoop d.peripherals with
  | Except.error ps => Except.error { d with peripherals := ps }
  | Except.ok ps => Except.ok { d with peripherals := ps }

def revRange (n : Nat) : List Nat :=
  (List.range n).reverse

/-- The inner field loop of `remove_reserved` for the fixed register index
`i`: the loop bounds were computed once, so the remaining `f` values are an
explicit list.  Each step re-reads `peripheral.registers[i]` (IndexError
when a deletion has shifted the list past `i`) and then
`.fields[f]` (IndexError when the register now at `i` has fewer fields), and
deletes the register at `i` when the field name contains "reserved".  An
absent field name is an AttributeError in `.lower()`. -/
def rrInner (i : Nat) : List Nat → List SVDRegister → Except (List SVDRegister) (List SVDRegister)
  | [], regs => Except.ok regs
  | f :: fs, regs =>
      match regs[i]? with
      | none => Except.error regs
      | some r =>
          match r.fields[f]? with
          | none => Except.error regs
          | some fld =>
              match fld.name with
              | none => Except.error regs
              | some nm =>
                  if hasReservedSub nm then rrInner i fs (regs.eraseIdx i)
                  else rrInner i fs regs

/-- The outer register loop of `remove_reserved`: indices in descending
order.  A register whose name contains "reserved" is deleted outright;
otherwise its field list drives `rrInner`.  An absent register name is an
AttributeError. -/
def rrOuter : List Nat → List SVDRegister → Except (List SVDRegister) (List SVDRegister)
  | [], regs => Except.ok regs
  | i :: is, regs =>
      match regs[i]? with
      | none => Except.error regs
      | some r =>
          match r.name with
          | none => Except.error regs
          | some nm =>
              if hasReservedSub nm then rrOuter is (regs.eraseIdx i)
              else
                match rrInner i (revRange r.fields.length) regs with
                | Except.error regs' => Except.error regs'
                | Except.ok regs' => rrOuter is regs'

def remove_reserved_regs (regs : List SVDRegister) : Except (List SVDRegister) (List SVDRegister) :=
  rrOuter (revRange regs.length) regs

/-- The peripheral loop of `remove_reserved`. -/
def rrPeriphsLoop : List SVDPeripheral → Except (List SVDPeripheral) (List SVDPeripheral)
  | [] => Except.ok []
  | p :: ps =>
      match remove_reserved_regs p.registers with
      | Except.error rs => Except.error ({ p with registers := rs } :: ps)
      | Except.ok rs =>
          match rrPeriphsLoop ps with
          | Except.error ps' => Except.error ({ p with registers := rs } :: ps')
          | Except.ok ps' => Except.ok ({ p with registers := rs } :: ps')

/-- `remove_reserved(input)`: delete "reserved" placeholder registers in
place; an escaping exception is an error carrying the device as mutated so
far. -/
def remove_reserved (d : SVDDevice) : Except SVDDevice SVDDevice :=
  match rrPeriphsLoop d.peripherals with
  | Except.error ps => Except.error { d with peripherals := ps }
  | Except.ok ps => Except.ok { d with peripherals := ps }

/-- The array-descriptor invariant claimed in the spec data model: either
all three of `dim`, `dim_increment`, `dim_index` are present with
`dim = length dim_index`, or all three are absent. -/
def arrayDescriptorOk (r : SVDRegister) : Bool :=
  match r.dim, r.dim_increment, r.dim_index with
  | some n, some _, some idx => n == (idx.length : Int)
  | none, none, none => true
  | _, _, _ => false

theorem parse_field_eq (e : Element) (evs : List SVDEnumeratedValue) (bo bw msb lsb : Option Int)
    (h1 : mapME parse_enumerated_value (findallPath2 e "enumeratedValues" "enumeratedValue") =
      Except.ok evs)
    (h2 : get_int e "bitOffset" none = Except.ok bo)
    (h3 : get_int e "bitWidth" none = Except.ok bw)
    (h4 : get_int e "msb" none = Except.ok msb)
    (h5 : get_int e "lsb" none = Except.ok lsb) :
    parse_field e =
      match resolveBits (get_text e "bitRange" none) bo bw msb lsb with
      | Except.error err => Except.error err
      | Except.ok (bo2, bw2) => Except.ok (fieldRecord e bo2 bw2 evs) := by
  unfold parse_field
  rw [h1, h2, h3, h4, h5]

/-- C3: a `bitRange` token `[m:l]` resolves `bit_offset = l` and
`bit_width = m - l + 1` regardless of any co-present parsed `msb`/`lsb` or
`bitOffset`/`bitWidth` values; with `bitRange` absent a present `msb`/`lsb`
pair gives `bit_offset = lsb`, `bit_width = msb - lsb + 1`; with neither,
`bitOffset`/`bitWidth` pass through verbatim (absent staying `none`). -/
theorem C3_bit_range_priority (e : Element) (evs : List SVDEnumeratedValue) (bo bw : Option Int)
    (henum : mapME parse_enumerated_value (findallPath2 e "enumeratedValues" "enumeratedValue") =
      Except.ok evs)
    (hbo : get_int e "bitOffset" none = Except.ok bo)
    (hbw : get_int e "bitWidth" none = Except.ok bw) :
    (∀ (s : String) (m l : Nat) (msb lsb : Option Int),
        get_text e "bitRange" none = some s →
        searchBitRange s = some (m, l) →
        get_int e "msb" none = Except.ok msb →
        get_int e "lsb" none = Except.ok lsb →
        parse_field e =
          Except.ok (fieldRecord e (some (l : Int)) (some ((m : Int) - (l : Int) + 1)) evs)) ∧
    (∀ m l : Int,
        get_text e "bitRange" none = none →
        get_int e "msb" none = Except.ok (some m) →
        get_int e "lsb" none = Except.ok (some l) →
        parse_field e = Except.ok (fieldRecord e (some l) (some (m - l + 1)) evs)) ∧
    (∀ lsb : Option Int,
        get_text e "bitRange" none = none →
        get_int e "msb" none = Except.ok none →
        get_int e "lsb" none = Except.ok lsb →
        parse_field e = Except.ok (fieldRecord e bo bw evs)) := by
  refine ⟨?_, ?_, ?_⟩
  · intro s m l msb lsb hbr hsearch hmsb hlsb
    rw [parse_field_eq e evs bo bw msb lsb henum hbo hbw hmsb hlsb]
    rw [hbr]
    simp [resolveBits, hsearch]
    ring_nf
  · intro m l hbr hmsb hlsb
    rw [parse_field_eq e evs bo bw (some m) (some l) henum hbo hbw hmsb hlsb]
    rw [hbr]
    simp [resolveBits]
    ring_nf
  · intro lsb hbr hmsb hlsb
    rw [parse_field_eq e evs bo bw none lsb henum hbo hbw hmsb hlsb]
    rw [hbr]
    simp [resolveBits]

/-- A field node carrying a `bitRange` of `[7:4]` together with conflicting
`msb`/`lsb` and `bitOffset`/`bitWidth` notations. -/
def C3node : Element := elemOf "field" none
  [elemOf "name" (some "F") [], elemOf "bitRange" (some "[7:4]") [],
   elemOf "msb" (some "9") [], elemOf "lsb" (some "1") [],
   elemOf "bitOffset" (some "0") [], elemOf "bitWidth" (some "3") []]

/-- C3 witness: on `C3node` the `bitRange` notation wins: offset 4, width 4. -/
theorem C3_witness :
    parse_field C3node = Except.ok (fieldRecord C3node (some 4) (some 4) []) := by
  have h := (C3_bit_range_priority C3node [] (some 0) (some 3) (by decide) (by decide)
    (by decide)).1 "[7:4]" 7 4 (some 9) (some 1) (by decide) (by decide) (by decide) (by decide)
  simpa using h

/-- C10: with no `bitRange`, a parsed `msb` but an absent `lsb`, the field
translator fails fatally (`msb - lsb` is a TypeError on `None`) instead of
returning a field. -/
theorem C10_msb_without_lsb_fatal (e : Element) (m : Int)
    (hbr : get_text e "bitRange" none = none)
    (hmsb : get_int e "msb" none = Except.ok (some m))
    (hlsb : get_int e "lsb" none = Except.ok none) :
    parse_field e = Except.error () := by
  unfold parse_field
  cases h1 : mapME parse_enumerated_value (findallPath2 e "enumeratedValues" "enumeratedValue") with
  | error err => cases err; rfl
  | ok evs =>
    cases h2 : get_int e "bitOffset" none with
    | error err => cases err; rfl
    | ok bo =>
      cases h3 : get_int e "bitWidth" none with
      | error err => cases err; rfl
      | ok bw =>
        rw [hmsb, hlsb, hbr]
        simp [resolveBits]

/-- A field node with `msb` present and `lsb` absent. -/
def C10node : Element := elemOf "field" none [elemOf "msb" (some "9") []]

/-- C10 witness: the translator fails fatally on `C10node`. -/
theorem C10_witness : parse_field C10node = Except.error () :=
  C10_msb_without_lsb_fatal C10node 9 (by decide) (by decide) (by decide)

def natOfDigits (base : Nat) (ds : List Char) : Nat :=
  ds.foldl (fun a c => base * a + (digitVal c).getD 0) 0

theorem dropWhile_head_false {p : Char → Bool} : ∀ {cs : List Char},
    (∀ c ∈ cs, p c = false) → cs.dropWhile p = cs := by
  intro cs h
  cases cs with
  | nil => rfl
  | cons a tl => simp [List.dropWhile_cons, h a (List.mem_cons_self a tl)]

theorem stripWs_no_space (cs : List Char) (h : ∀ c ∈ cs, isPySpace c = false) :
    stripWs cs = cs := by
  unfold stripWs
  rw [dropWhile_head_false h]
  rw [dropWhile_head_false (by intro c hc; exact h c (List.mem_reverse.mp hc))]
  exact List.reverse_reverse cs

theorem digitVal_not_space {c : Char} (h : (digitVal c).isSome) : isPySpace c = false := by
  by_contra hb
  have hsp : isPySpace c = true := by
    cases hx : isPySpace c
    · exact absurd hx hb
    · rfl
  unfold isPySpace at hsp
  simp only [Bool.or_eq_true, decide_eq_true_eq] at hsp
  rcases hsp with ((((h1 | h1) | h1) | h1) | h1) | h1 <;> subst h1 <;> simp [digitVal] at h

theorem digitsValAux_fold (base : Nat) : ∀ (cs : List Char) (acc : Nat),
    (∀ c ∈ cs, ∃ v, digitVal c = some v ∧ v < base) →
    digitsValAux base acc cs = some (cs.foldl (fun a c => base * a + (digitVal c).getD 0) acc) := by
  intro cs
  induction cs with
  | nil => intro acc _; rfl
  | cons c tl ih =>
    intro acc h
    obtain ⟨v, hv, hvb⟩ := h c (List.mem_cons_self c tl)
    simp only [digitsValAux, hv, if_pos hvb, List.foldl_cons, Option.getD_some]
    exact ih (base * acc + v) (fun d hd => h d (List.mem_cons_of_mem c hd))

theorem digitsVal_valid (base : Nat) (cs : List Char) (hne : cs ≠ [])
    (h : ∀ c ∈ cs, ∃ v, digitVal c = some v ∧ v < base) :
    digitsVal base cs = some (natOfDigits base cs) := by
  unfold digitsVal natOfDigits
  rw [if_neg (by simpa using hne)]
  exact digitsValAux_fold base cs 0 h

theorem digitsValAux_bad (base : Nat) : ∀ (cs : List Char) (acc : Nat) (c : Char),
    c ∈ cs → base ≤ (digitVal c).getD base → digitsValAux base acc cs = none := by
  intro cs
  induction cs with
  | nil => intro acc c hc; exact absurd hc (List.not_mem_nil c)
  | cons a tl ih =>
    intro acc c hc hbad
    rcases List.mem_cons.mp hc with rfl | hmem
    · cases hv : digitVal c with
      | none => simp [digitsValAux, hv]
      | some v =>
        rw [hv] at hbad
        simp only [Option.getD_some] at hbad
        simp [digitsValAux, hv, Nat.not_lt.mpr hbad]
    · cases hv : digitVal a with
      | none => simp [digitsValAux, hv]
      | some v =>
        by_cases hvb : v < base
        · simp only [digitsValAux, hv, if_pos hvb]
          exact ih (base * acc + v) c hmem hbad
        · simp [digitsValAux, hv, hvb]

theorem digit_ne_plus {c : Char} (h : (digitVal c).isSome) : c ≠ '+' := by
  intro hc; subst hc; simp [digitVal] at h

theorem digit_ne_minus {c : Char} (h : (digitVal c).isSome) : c ≠ '-' := by
  intro hc; subst hc; simp [digitVal] at h

theorem pyIntOfString_digits (base : Nat) (ds : List Char)
    (hne : ds ≠ [])
    (hvalid : ∀ c ∈ ds, ∃ v, digitVal c = some v ∧ v < base)
    (hmark : dropRadixMark base ds = ds) :
    pyIntOfString ⟨ds⟩ base = some ((natOfDigits base ds : Nat) : Int) := by
  have hsome : ∀ c ∈ ds, (digitVal c).isSome := by
    intro c hc; obtain ⟨v, hv, _⟩ := hvalid c hc; simp [hv]
  have hstrip : stripWs ds = ds :=
    stripWs_no_space ds (fun c hc => digitVal_not_space (hsome c hc))
  unfold pyIntOfString
  simp only [hstrip]
  rcases ds with _ | ⟨a, tl⟩
  · exact absurd rfl hne
  · have ha := hsome a (List.mem_cons_self a tl)
    have hap := digit_ne_plus ha
    have ham := digit_ne_minus ha
    split
    · next rest heq =>
        exact absurd (List.head_eq_of_cons_eq heq) hap
    · next rest heq =>
        exact absurd (List.head_eq_of_cons_eq heq) ham
    · next h1 h2 =>
        rw [hmark, digitsVal_valid base (a :: tl) hne hvalid]
        rfl

theorem toLower_digit (c : Char) (h1 : '0' ≤ c) (h2 : c ≤ '9') : c.toLower = c := by
  have h1' : 48 ≤ c.toNat := Char.le_def.mp h1
  have h2' : c.toNat ≤ 57 := Char.le_def.mp h2
  unfold Char.toLower
  rw [if_neg]
  omega

theorem digitVal_dec_bounds (c : Char) (v : Nat) (hv : digitVal c = some v) (hlt : v < 10) :
    '0' ≤ c ∧ c ≤ '9' := by
  unfold digitVal at hv
  split_ifs at hv with h1 h2 h3
  · exact h1
  · exact absurd hv (by simp; omega)
  · exact absurd hv (by simp; omega)

theorem digit_toNat_bounds (c : Char) (h1 : '0' ≤ c) (h2 : c ≤ '9') :
    48 ≤ c.toNat ∧ c.toNat ≤ 57 :=
  ⟨Char.le_def.mp h1, Char.le_def.mp h2⟩

theorem char_ne_of_toNat_ne {a b : Char} (h : a.toNat ≠ b.toNat) : a ≠ b := by
  intro hab; exact h (by rw [hab])

theorem sw0x_false_digit (a b : Char) (rest : List Char) (hb1 : '0' ≤ b) (hb2 : b ≤ '9') :
    startsWith0xLower ⟨a :: b :: rest⟩ = false := by
  obtain ⟨hb1', hb2'⟩ := digit_toNat_bounds b hb1 hb2
  unfold startsWith0xLower
  simp only [toLower_digit b hb1 hb2]
  have hbx : (b == 'x') = false := by
    simp only [beq_eq_false_iff_ne]
    have hx : ('x' : Char).toNat = 120 := by decide
    exact char_ne_of_toNat_ne (by omega)
  simp [hbx]

theorem sw0x_false_hash (cs : List Char) : startsWith0xLower ⟨'#' :: cs⟩ = false := by
  cases cs with
  | nil => rfl
  | cons b r =>
    unfold startsWith0xLower
    have : ('#'.toLower == '0') = false := by decide
    simp [this]

theorem dropRadixMark_valid (base : Nat) (ds : List Char)
    (h : ∀ c ∈ ds, ∃ v, digitVal c = some v ∧ v < base) : dropRadixMark base ds = ds := by
  unfold dropRadixMark
  split
  · next c rest =>
    rw [if_neg]
    intro hor
    obtain ⟨v, hv, hvb⟩ := h c (by simp)
    rcases Bool.or_eq_true_iff.mp hor with hx | hx
    · rw [of_decide_eq_true hx] at hv; simp [digitVal] at hv
    · rw [of_decide_eq_true hx] at hv; simp [digitVal] at hv
  · next c rest =>
    rw [if_neg]
    intro hor
    obtain ⟨v, hv, hvb⟩ := h c (by simp)
    rcases Bool.or_eq_true_iff.mp hor with hx | hx
    · rw [of_decide_eq_true hx] at hv
      have hv11 : v = 11 := by simpa [digitVal] using hv.symm
      omega
    · rw [of_decide_eq_true hx] at hv
      have hv11 : v = 11 := by simpa [digitVal] using hv.symm
      omega
  · rfl

theorem get_int_of_text (e : Element) (tag : String) (c : Element) (s : String)
    (hc : findChild e tag = some c) (ht : c.text = some s) :
    get_int e tag none =
      match parseSVDInt s with
      | some n => Except.ok (some n)
      | none => Except.error () := by
  unfold get_int
  rw [hc]
  simp only [ht]

theorem char_toNat_inj {a b : Char} (h : a.toNat = b.toNat) : a = b := by
  have ha := Char.ofNat_toNat a
  have hb := Char.ofNat_toNat b
  rw [← ha, ← hb, h]

theorem digitVal_dec_val (c : Char) (h1 : '0' ≤ c) (h2 : c ≤ '9') :
    digitVal c = some (c.toNat - 48) :=
  if_pos ⟨h1, h2⟩

theorem dropRadixMark_dec (base : Nat) (ds : List Char)
    (h : ∀ c ∈ ds, ∃ v, digitVal c = some v ∧ v < 10) : dropRadixMark base ds = ds := by
  unfold dropRadixMark
  split
  · next c rest =>
    rw [if_neg]
    intro hor
    obtain ⟨v, hv, hvb⟩ := h c (by simp)
    rcases Bool.or_eq_true_iff.mp hor with hx | hx
    · rw [of_decide_eq_true hx] at hv; simp [digitVal] at hv
    · rw [of_decide_eq_true hx] at hv; simp [digitVal] at hv
  · next c rest =>
    rw [if_neg]
    intro hor
    obtain ⟨v, hv, hvb⟩ := h c (by simp)
    rcases Bool.or_eq_true_iff.mp hor with hx | hx
    · rw [of_decide_eq_true hx] at hv
      have hv11 : v = 11 := by simpa [digitVal] using hv.symm
      omega
    · rw [of_decide_eq_true hx] at hv
      have hv11 : v = 11 := by simpa [digitVal] using hv.symm
      omega
  · rfl

/-- C6 amended: the sentinel-default law, the `0x` base-16 law, the `#` law
with only lowercase `'x'` coerced to `'0'`, the base-10 law, and fatality of
a `#`-string containing a decimal digit other than 0/1 (which the code does
not coerce). -/
theorem C6_amended_get_int_encodings (e : Element) (tag : String) :
    (∀ d : Option Int, findChild e tag = none → get_int e tag d = Except.ok d) ∧
    (∀ c : Element, findChild e tag = some c → c.text = none →
        get_int e tag none = Except.ok none) ∧
    (∀ (c : Element) (s : String) (ds : List Char),
        findChild e tag = some c → c.text = some s →
        s.data = '0' :: 'x' :: ds → ds ≠ [] →
        (∀ ch ∈ ds, ∃ v, digitVal ch = some v ∧ v < 16) →
        get_int e tag none = Except.ok (some ((natOfDigits 16 ds : Nat) : Int))) ∧
    (∀ (c : Element) (s : String) (cs : List Char),
        findChild e tag = some c → c.text = some s →
        s.data = '#' :: cs → cs ≠ [] →
        (∀ ch ∈ cs, ch = '0' ∨ ch = '1' ∨ ch = 'x') →
        get_int e tag none =
          Except.ok (some ((natOfDigits 2
            (cs.map (fun ch => if ch = 'x' then '0' else ch)) : Nat) : Int))) ∧
    (∀ (c : Element) (s : String),
        findChild e tag = some c → c.text = some s →
        s.data ≠ [] → (∀ ch ∈ s.data, ∃ v, digitVal ch = some v ∧ v < 10) →
        get_int e tag none = Except.ok (some ((natOfDigits 10 s.data : Nat) : Int))) ∧
    (∀ (c : Element) (s : String) (cs : List Char) (bad : Char),
        findChild e tag = some c → c.text = some s →
        s.data = '#' :: cs →
        (∀ ch ∈ cs, ∃ v, digitVal ch = some v ∧ v < 10) →
        bad ∈ cs → bad ≠ '0' → bad ≠ '1' →
        get_int e tag none = Except.error ()) := by
  refine ⟨?_, ?_, ?_, ?_, ?_, ?_⟩
  · intro d h
    unfold get_int
    rw [h]
  · intro c hc ht
    unfold get_int
    rw [hc]
    simp [ht]
  · -- base-16 law
    intro c s ds hc ht hsd hne hvalid
    rw [get_int_of_text e tag c s hc ht]
    obtain ⟨sdata⟩ := s
    simp only at hsd
    subst hsd
    have h0x : startsWith0xLower ⟨'0' :: 'x' :: ds⟩ = true := rfl
    have hps : parseSVDInt ⟨'0' :: 'x' :: ds⟩ = some ((natOfDigits 16 ds : Nat) : Int) := by
      unfold parseSVDInt
      rw [if_pos h0x]
      show pyIntOfString ⟨ds⟩ 16 = _
      exact pyIntOfString_digits 16 ds hne hvalid (dropRadixMark_valid 16 ds hvalid)
    rw [hps]
  · -- hash law
    intro c s cs hc ht hsd hne hmem
    rw [get_int_of_text e tag c s hc ht]
    obtain ⟨sdata⟩ := s
    simp only at hsd
    subst hsd
    have hvalid2 : ∀ ch ∈ cs.map (fun ch => if ch = 'x' then '0' else ch),
        ∃ v, digitVal ch = some v ∧ v < 2 := by
      intro ch hch
      obtain ⟨orig, ho, rfl⟩ := List.mem_map.mp hch
      rcases hmem orig ho with rfl | rfl | rfl
      · exact ⟨0, by decide, by decide⟩
      · exact ⟨1, by decide, by decide⟩
      · exact ⟨0, by decide, by decide⟩
    have hne2 : cs.map (fun ch => if ch = 'x' then '0' else ch) ≠ [] := by
      simpa using hne
    have hps : parseSVDInt ⟨'#' :: cs⟩ =
        some ((natOfDigits 2 (cs.map (fun ch => if ch = 'x' then '0' else ch)) : Nat) : Int) := by
      unfold parseSVDInt
      rw [if_neg (by rw [sw0x_false_hash]; exact Bool.false_ne_true)]
      rw [if_pos (show (⟨'#' :: cs⟩ : String).data.take 1 = ['#'] from rfl)]
      show pyIntOfString ⟨cs.map (fun ch => if ch = 'x' then '0' else ch)⟩ 2 = _
      exact pyIntOfString_digits 2 _ hne2 hvalid2 (dropRadixMark_valid 2 _ hvalid2)
    rw [hps]
  · -- base-10 law
    intro c s hc ht hne hvalid
    rw [get_int_of_text e tag c s hc ht]
    obtain ⟨sdata⟩ := s
    simp only at hne hvalid ⊢
    rcases hd : sdata with _ | ⟨a, tl⟩
    · exact absurd hd hne
    · subst hd
      obtain ⟨va, hva, hvab⟩ := hvalid a (by simp)
      obtain ⟨ha1, ha2⟩ := digitVal_dec_bounds a va hva hvab
      obtain ⟨ha1', ha2'⟩ := digit_toNat_bounds a ha1 ha2
      have hsw : startsWith0xLower ⟨a :: tl⟩ = false := by
        rcases tl with _ | ⟨b, r⟩
        · rfl
        · obtain ⟨vb, hvb, hvbb⟩ := hvalid b (by simp)
          obtain ⟨hb1, hb2⟩ := digitVal_dec_bounds b vb hvb hvbb
          exact sw0x_false_digit a b r hb1 hb2
      have hhash : ¬ ((⟨a :: tl⟩ : String).data.take 1 = ['#']) := by
        show ¬ ([a] = ['#'])
        intro hlist
        have ha : a = '#' := by injection hlist
        subst ha
        have h35 : ('#' : Char).toNat = 35 := by decide
        omega
      have hps : parseSVDInt ⟨a :: tl⟩ = some ((natOfDigits 10 (a :: tl) : Nat) : Int) := by
        unfold parseSVDInt
        rw [if_neg (by rw [hsw]; exact Bool.false_ne_true)]
        rw [if_neg hhash]
        exact pyIntOfString_digits 10 _ hne hvalid (dropRadixMark_dec 10 _ hvalid)
      rw [hps]
  · -- hash fatal law
    intro c s cs bad hc ht hsd hdig hbad hb0 hb1
    rw [get_int_of_text e tag c s hc ht]
    obtain ⟨sdata⟩ := s
    simp only at hsd
    subst hsd
    have hmapid : cs.map (fun ch => if ch = 'x' then '0' else ch) = cs := by
      have : cs.map (fun ch => if ch = 'x' then '0' else ch) = cs.map id := by
        apply List.map_congr_left
        intro ch hch
        obtain ⟨v, hv, hvb⟩ := hdig ch hch
        obtain ⟨h1, h2⟩ := digitVal_dec_bounds ch v hv hvb
        obtain ⟨h1', h2'⟩ := digit_toNat_bounds ch h1 h2
        have hchx : ch ≠ 'x' := char_ne_of_toNat_ne (by
          have hx : ('x' : Char).toNat = 120 := by decide
          omega)
        simp [hchx]
      rw [this, List.map_id]
    have hcs_ne : cs ≠ [] := by
      intro h
      rw [h] at hbad
      exact List.not_mem_nil bad hbad
    have hbadval : ∃ v, digitVal bad = some v ∧ 2 ≤ v := by
      obtain ⟨v, hv, hvb⟩ := hdig bad hbad
      obtain ⟨h1, h2⟩ := digitVal_dec_bounds bad v hv hvb
      obtain ⟨h1', h2'⟩ := digit_toNat_bounds bad h1 h2
      refine ⟨v, hv, ?_⟩
      have hveq : v = bad.toNat - 48 := by
        have := digitVal_dec_val bad h1 h2
        rw [hv] at this
        exact Option.some.inj this
      have hn0 : bad.toNat ≠ 48 := fun h => hb0 (char_toNat_inj (by rw [h]; decide))
      have hn1 : bad.toNat ≠ 49 := fun h => hb1 (char_toNat_inj (by rw [h]; decide))
      omega
    have hps : parseSVDInt ⟨'#' :: cs⟩ = none := by
      unfold parseSVDInt
      rw [if_neg (by rw [sw0x_false_hash]; exact Bool.false_ne_true)]
      rw [if_pos (show (⟨'#' :: cs⟩ : String).data.take 1 = ['#'] from rfl)]
      show pyIntOfString ⟨cs.map (fun ch => if ch = 'x' then '0' else ch)⟩ 2 = none
      rw [hmapid]
      have hsome : ∀ ch ∈ cs, (digitVal ch).isSome := by
        intro ch hch
        obtain ⟨v, hv, _⟩ := hdig ch hch
        simp [hv]
      have hstrip : stripWs cs = cs :=
        stripWs_no_space cs (fun ch hch => digitVal_not_space (hsome ch hch))
      unfold pyIntOfString
      simp only [hstrip]
      rcases hcd : cs with _ | ⟨a, tl⟩
      · exact absurd hcd hcs_ne
      · subst hcd
        have ha := hsome a (by simp)
        split
        · next rest heq => exact absurd (List.head_eq_of_cons_eq heq) (digit_ne_plus ha)
        · next rest heq => exact absurd (List.head_eq_of_cons_eq heq) (digit_ne_minus ha)
        · next h1 h2 =>
          rw [dropRadixMark_dec 2 (a :: tl) hdig]
          obtain ⟨v, hv, hv2⟩ := hbadval
          have : digitsVal 2 (a :: tl) = none := by
            unfold digitsVal
            rw [if_neg (by simp)]
            exact digitsValAux_bad 2 (a :: tl) 0 bad hbad (by rw [hv]; simpa using hv2)
          rw [this]
          rfl
    rw [hps]

/-- Modelled from the spec (claim C6's wording of the `#` encoding, which is
not the code's): every character after `#` other than `0`/`1` is coerced to
`0`, and the result is parsed as base 2. -/
def claimHashValue (cs : List Char) : Option Nat :=
  digitsVal 2 (cs.map (fun c => if c = '0' ∨ c = '1' then c else '0'))

/-- A node whose tag `v` carries the text `#120`. -/
def C6badNode : Element := elemOf "register" none [elemOf "v" (some "#120") []]

/-- C6 counterexample: on `#120` the claim's coercion rule (`2` → `0`) would
yield binary `100`, i.e. the value 4, but the code coerces only the letter
`x`, so `int("120", 2)` raises and `_get_int` fails fatally instead of
returning 4. -/
theorem C6_counterexample :
    get_int C6badNode "v" none = Except.error () ∧
    get_int C6badNode "v" none ≠ Except.ok (some 4) ∧
    claimHashValue ("120".data) = some 4 := by
  refine ⟨by decide, by decide, by decide⟩

/-- A node whose tag `v` carries the text `0x1F`. -/
def C6wNode : Element := elemOf "register" none [elemOf "v" (some "0x1F") []]

/-- C6 witness: `0x1F` parses to 31 through the base-16 law. -/
theorem C6_witness : get_int C6wNode "v" none = Except.ok (some 31) := by
  have h := (C6_amended_get_int_encodings C6wNode "v").2.2.1
    (elemOf "v" (some "0x1F") []) "0x1F" ['1', 'F'] rfl rfl rfl (by decide) (by decide)
  exact h

/-- A node whose only `name` child is present but carries no text. -/
def C7emptyTextNode : Element := elemOf "register" none [elemOf "name" none []]

/-- A node whose only `name` element is a grandchild, not a direct child. -/
def C7deepNode : Element :=
  elemOf "register" none [elemOf "wrap" none [elemOf "name" (some "X") []]]

/-- C7 counterexample: a matching child whose text is absent yields `none`,
not the supplied default; and a `name` element present only as a grandchild
is not found at all — the default is returned even though a descendant with
text exists. -/
theorem C7_counterexample :
    get_text C7emptyTextNode "name" (some "fallback") = none ∧
    (findallDesc C7deepNode "name").map Element.text = [some "X"] ∧
    get_text C7deepNode "name" (some "fb") = some "fb" := by
  refine ⟨by decide, by decide, by decide⟩

/-- C7 amended: `get_text` returns the default exactly when no direct child
matches the tag; when a matching child exists the result is its text
content, independent of the default — in particular a present child with
absent text yields `none`, not the default.  The function is total (never
raises). -/
theorem C7_amended_get_text (e : Element) (tag : String) (d1 d2 : Option String) :
    (findChild e tag = none → get_text e tag d1 = d1) ∧
    (∀ c, findChild e tag = some c → get_text e tag d1 = get_text e tag d2) ∧
    (∀ c s, findChild e tag = some c → c.text = some s → get_text e tag d1 = some s) := by
  unfold get_text
  exact ⟨fun h => by rw [h], fun c h => by rw [h], fun c s h ht => by rw [h]; exact ht⟩

/-- A node with a `name` child carrying text `N`. -/
def C7wNode : Element := elemOf "register" none [elemOf "name" (some "N") []]

/-- C7 witness: with a matching child present the text is returned, not the
default. -/
theorem C7_witness : get_text C7wNode "name" (some "d") = some "N" :=
  (C7_amended_get_text C7wNode "name" (some "d") none).2.2
    (elemOf "name" (some "N") []) "N" rfl rfl

/-- A field node whose only `enumeratedValue` sits below an intermediate
wrapper under `enumeratedValues`, so the code's direct-child path misses
it. -/
def C9deepNode : Element := elemOf "field" none
  [elemOf "enumeratedValues" none
    [elemOf "wrapper" none [elemOf "enumeratedValue" none [elemOf "value" (some "1") []]]]]

/-- C9 counterexample: an `enumeratedValue` that is a strict descendant (but
not a direct child) of the `enumeratedValues` child is not gathered — the
field's collection comes out absent although the claim's "anywhere under"
reading would collect it. -/
theorem C9_counterexample :
    parse_field C9deepNode = Except.ok (fieldRecord C9deepNode none none []) ∧
    (fieldRecord C9deepNode none none []).enumerated_values = none ∧
    ((findChild C9deepNode "enumeratedValues").map
        (fun c => (findallDesc c "enumeratedValue").length)) = some 1 := by
  refine ⟨by decide, by decide, by decide⟩

/-- C9 amended: the enumerated values of a successfully translated field are
exactly those parsed from the `enumeratedValue` nodes that are direct
children of direct `enumeratedValues` children (in document order), with an
empty collection normalised to absent. -/
theorem C9_amended_enumerated_values (e : Element) (f : SVDField)
    (h : parse_field e = Except.ok f) :
    ∃ evs,
      mapME parse_enumerated_value (findallPath2 e "enumeratedValues" "enumeratedValue") =
        Except.ok evs ∧
      f.enumerated_values = (if evs.isEmpty then none else some evs) := by
  unfold parse_field at h
  cases h1 : mapME parse_enumerated_value (findallPath2 e "enumeratedValues" "enumeratedValue") with
  | error err => simp only [h1] at h; exact absurd h (by simp)
  | ok evs =>
    simp only [h1] at h
    refine ⟨evs, rfl, ?_⟩
    cases h2 : get_int e "bitOffset" none with
    | error err => simp only [h2] at h; exact absurd h (by simp)
    | ok bo =>
      simp only [h2] at h
      cases h3 : get_int e "bitWidth" none with
      | error err => simp only [h3] at h; exact absurd h (by simp)
      | ok bw =>
        simp only [h3] at h
        cases h4 : get_int e "msb" none with
        | error err => simp only [h4] at h; exact absurd h (by simp)
        | ok msb =>
          simp only [h4] at h
          cases h5 : get_int e "lsb" none with
          | error err => simp only [h5] at h; exact absurd h (by simp)
          | ok lsb =>
            simp only [h5] at h
            cases h6 : resolveBits (get_text e "bitRange" none) bo bw msb lsb with
            | error err => simp only [h6] at h; exact absurd h (by simp)
            | ok p =>
              obtain ⟨bo2, bw2⟩ := p
              simp only [h6] at h
              have hf : fieldRecord e bo2 bw2 evs = f := by
                simpa using h
              rw [← hf]
              rfl

/-- A field node with no enumerated values at all. -/
def C9wNode : Element := elemOf "field" none [elemOf "name" (some "F") []]

/-- C9 witness: a field with zero declared enumerated values has an absent
collection. -/
theorem C9_witness :
    ∃ evs,
      mapME parse_enumerated_value (findallPath2 C9wNode "enumeratedValues" "enumeratedValue") =
        Except.ok evs ∧
      (fieldRecord C9wNode none none []).enumerated_values =
        (if evs.isEmpty then none else some evs) :=
  C9_amended_enumerated_values C9wNode (fieldRecord C9wNode none none []) (by decide)

theorem mapME_mem {f : α → Except ε β} : ∀ {l : List α} {out : List β},
    mapME f l = Except.ok out → ∀ b ∈ out, ∃ a ∈ l, f a = Except.ok b := by
  intro l
  induction l with
  | nil =>
    intro out h b hb
    unfold mapME at h
    cases h
    exact absurd hb (List.not_mem_nil b)
  | cons a tl ih =>
    intro out h b hb
    unfold mapME at h
    cases hfa : f a with
    | error err => rw [hfa] at h; exact absurd h (by simp)
    | ok b0 =>
      rw [hfa] at h
      cases htl : mapME f tl with
      | error err => rw [htl] at h; exact absurd h (by simp)
      | ok bs =>
        rw [htl] at h
        have hout : b0 :: bs = out := by simpa using h
        rw [← hout] at hb
        rcases List.mem_cons.mp hb with rfl | hmem
        · exact ⟨a, List.mem_cons_self a tl, hfa⟩
        · obtain ⟨a2, ha2, hfa2⟩ := ih htl b hmem
          exact ⟨a2, List.mem_cons_of_mem a ha2, hfa2⟩

theorem mkCopy_ok_shape (t : SVDRegister) (idx : List String) (i : Nat) (r : SVDRegister)
    (h : mkCopy t idx i = Except.ok r) :
    ∃ nm ao, r = mkExpandedReg t nm ao := by
  unfold mkCopy at h
  cases h1 : t.name with
  | none => simp only [h1] at h; exact absurd h (by simp)
  | some nm =>
    simp only [h1] at h
    cases h2 : idx[i]? with
    | none => simp only [h2] at h; exact absurd h (by simp)
    | some tok =>
      simp only [h2] at h
      cases h3 : pyModS nm tok with
      | none => simp only [h3] at h; exact absurd h (by simp)
      | some newName =>
        simp only [h3] at h
        cases h4 : t.address_offset with
        | none => simp only [h4] at h; exact absurd h (by simp)
        | some off =>
          simp only [h4] at h
          cases h5 : t.dim_increment with
          | none => simp only [h5] at h; exact absurd h (by simp)
          | some inc =>
            simp only [h5] at h
            exact ⟨newName, off + inc * (i : Int), by simpa using h.symm⟩

/-- C8 corrected (amended part): every register produced by the expansion of
an array template has all three array-descriptor attributes absent, hence
satisfies the all-absent arm of the invariant. -/
theorem C8_amended_expansion_clears_descriptor (t : SVDRegister) (out : List SVDRegister)
    (h : duplicate_array_of_registers t = Except.ok out) :
    ∀ r ∈ out, r.dim = none ∧ r.dim_increment = none ∧ r.dim_index = none ∧
      arrayDescriptorOk r = true := by
  intro r hr
  unfold duplicate_array_of_registers at h
  cases h1 : t.dim_index with
  | none => simp only [h1] at h; exact absurd h (by simp)
  | some idx =>
    simp only [h1] at h
    cases h2 : t.dim with
    | none => simp only [h2] at h; exact absurd h (by simp)
    | some d =>
      simp only [h2] at h
      by_cases hd : d = (idx.length : Int)
      · simp only [if_pos hd] at h
        obtain ⟨i, _, hcopy⟩ := mapME_mem h r hr
        obtain ⟨nm, ao, rfl⟩ := mkCopy_ok_shape t idx i r hcopy
        exact ⟨rfl, rfl, rfl, rfl⟩
      · simp only [if_neg hd] at h
        exact absurd h (by simp)

/-- A register node carrying `dim` but neither `dimIncrement` nor
`dimIndex`. -/
def C8node : Element := elemOf "register" none [elemOf "dim" (some "2") []]

def C8reg : SVDRegister :=
  { name := none, description := none, address_offset := none, size := none,
    access := none, reset_value := none, reset_mask := none, fields := [],
    dim := some 2, dim_increment := none, dim_index := none }

/-- C8 counterexample: the register translator does not enforce the
invariant — a node with only `dim` yields a register with `dim` present and
the other two descriptor attributes absent. -/
theorem C8_counterexample :
    parse_register C8node = Except.ok C8reg ∧ arrayDescriptorOk C8reg = false := by
  refine ⟨by decide, by decide⟩

def C8wReg : SVDRegister :=
  { name := some "R%s", description := none, address_offset := some 0, size := none,
    access := none, reset_value := none, reset_mask := none, fields := [],
    dim := some 1, dim_increment := some 4, dim_index := some ["0"] }

/-- C8 witness: the single expansion of `C8wReg` has its descriptor
cleared. -/
theorem C8_witness :
    (mkExpandedReg C8wReg "R0" 0).dim = none ∧
      (mkExpandedReg C8wReg "R0" 0).dim_increment = none ∧
      (mkExpandedReg C8wReg "R0" 0).dim_index = none ∧
      arrayDescriptorOk (mkExpandedReg C8wReg "R0" 0) = true :=
  C8_amended_expansion_clears_descriptor C8wReg [mkExpandedReg C8wReg "R0" 0] (by decide)
    (mkExpandedReg C8wReg "R0" 0) (List.mem_singleton_self _)

theorem mapME_ok_of_all {f : α → Except ε β} {g : α → β} : ∀ {l : List α},
    (∀ a ∈ l, f a = Except.ok (g a)) → mapME f l = Except.ok (l.map g) := by
  intro l
  induction l with
  | nil => intro _; rfl
  | cons a tl ih =>
    intro h
    unfold mapME
    rw [h a (List.mem_cons_self a tl), ih (fun b hb => h b (List.mem_cons_of_mem a hb))]
    rfl

theorem expandRegs_no_template : ∀ {L : List SVDRegister},
    (∀ r ∈ L, r.dim = none) → expandRegs L = Except.ok L := by
  intro L
  induction L with
  | nil => intro _; rfl
  | cons r rs ih =>
    intro h
    unfold expandRegs
    rw [ih (fun x hx => h x (List.mem_cons_of_mem r hx))]
    have hr : r.dim = none := h r (List.mem_cons_self r rs)
    simp [hr]

theorem expandRegs_append_ok : ∀ {A rest res : List SVDRegister},
    (∀ r ∈ A, r.dim = none) → expandRegs rest = Except.ok res →
    expandRegs (A ++ rest) = Except.ok (A ++ res) := by
  intro A
  induction A with
  | nil => intro rest res _ h; simpa using h
  | cons a tl ih =>
    intro rest res hA h
    have ha : a.dim = none := hA a (List.mem_cons_self a tl)
    have htl := ih (fun r hr => hA r (List.mem_cons_of_mem a hr)) h
    show expandRegs (a :: (tl ++ rest)) = Except.ok (a :: (tl ++ res))
    unfold expandRegs
    rw [htl]
    simp [ha]

theorem expandRegs_append_error : ∀ {A rest p : List SVDRegister},
    expandRegs rest = Except.error p →
    expandRegs (A ++ rest) = Except.error (A ++ p) := by
  intro A
  induction A with
  | nil => intro rest p h; simpa using h
  | cons a tl ih =>
    intro rest p h
    have htl := ih h
    show expandRegs (a :: (tl ++ rest)) = Except.error (a :: (tl ++ p))
    unfold expandRegs
    rw [htl]

theorem duplicate_array_ok (t : SVDRegister) (n inc off : Int) (idx : List String)
    (nm : String) (sub : Nat → String)
    (hdim : t.dim = some n) (hinc : t.dim_increment = some inc)
    (hidx : t.dim_index = some idx) (hoff : t.address_offset = some off)
    (hnm : t.name = some nm)
    (hlen : (idx.length : Int) = n)
    (hfmt : ∀ i (h : i < idx.length), pyModS nm idx[i] = some (sub i)) :
    duplicate_array_of_registers t =
      Except.ok ((List.range n.toNat).map
        (fun i => mkExpandedReg t (sub i) (off + inc * (i : Int)))) := by
  unfold duplicate_array_of_registers
  simp only [hidx, hdim]
  rw [if_pos hlen.symm]
  apply mapME_ok_of_all
  intro i hi
  have hilen : i < idx.length := by
    have := List.mem_range.mp hi
    omega
  unfold mkCopy
  simp only [hnm, List.getElem?_eq_getElem hilen, hfmt i hilen, hoff, hinc]

/-- C1: a register template with `dim = N`, `dim_index` of length `N` (and
the rest of its descriptor and name well-formed) is replaced, at its
original position among its (non-templated) siblings, by exactly the `N`
registers indexed `i = 0 .. N-1` whose names substitute `dim_index[i]` into
the template name, whose address offsets form the arithmetic progression
`address_offset + dim_increment * i`, whose remaining attributes are copied
from the template, and whose array descriptors are all absent; the relative
order of the siblings before and after the template is preserved. -/
theorem C1_array_expansion (d : SVDDevice) (p : SVDPeripheral) (A B : List SVDRegister)
    (t : SVDRegister) (n inc off : Int) (idx : List String) (nm : String) (sub : Nat → String)
    (hd : d.peripherals = [p])
    (hp : p.registers = A ++ t :: B)
    (hdim : t.dim = some n) (hinc : t.dim_increment = some inc)
    (hidx : t.dim_index = some idx) (hoff : t.address_offset = some off)
    (hnm : t.name = some nm)
    (hlen : (idx.length : Int) = n)
    (hfmt : ∀ i (h : i < idx.length), pyModS nm idx[i] = some (sub i))
    (hA : ∀ r ∈ A, r.dim = none) (hB : ∀ r ∈ B, r.dim = none) :
    duplicate_arrays_of_registers d = Except.ok
      { d with peripherals := [{ p with registers :=
          A ++ ((List.range n.toNat).map
            (fun i => mkExpandedReg t (sub i) (off + inc * (i : Int))) ++ B) }] } := by
  have hdup := duplicate_array_ok t n inc off idx nm sub hdim hinc hidx hoff hnm hlen hfmt
  have htB : expandRegs (t :: B) = Except.ok
      ((List.range n.toNat).map (fun i => mkExpandedReg t (sub i) (off + inc * (i : Int))) ++ B) := by
    unfold expandRegs
    rw [expandRegs_no_template hB]
    simp only [hdim, Option.isSome_some, if_true, hdup]
  have hAll := expandRegs_append_ok hA htB
  unfold duplicate_arrays_of_registers
  rw [hd]
  unfold expandPeriphsLoop
  rw [hp, hAll]
  rfl

def C1t : SVDRegister :=
  { name := some "CTRL%s", description := some "ctrl", address_offset := some 0,
    size := some 32, access := some "read-write", reset_value := some 0,
    reset_mask := some 4294967295, fields := [],
    dim := some 2, dim_increment := some 4, dim_index := some ["0", "1"] }

def C1plain (nm : String) : SVDRegister :=
  { name := some nm, description := none, address_offset := some 64, size := none,
    access := none, reset_value := none, reset_mask := none, fields := [],
    dim := none, dim_increment := none, dim_index := none }

def C1p : SVDPeripheral :=
  { name := some "P", description := none, prepend_to_name := none,
    base_address := some 1073741824, address_block := none, interrupts := [],
    registers := [C1plain "BEFORE", C1t, C1plain "AFTER"] }

def C1dev : SVDDevice :=
  { vendor := none, vendor_id := none, name := some "D", version := none,
    description := none, cpu := none, address_unit_bits := some 8, width := some 32,
    peripherals := [C1p] }

/-- C1 witness: the template `CTRL%s` with `dim = 2` expands, in place,
to `CTRL0` at offset 0 and `CTRL1` at offset 4. -/
theorem C1_witness :
    duplicate_arrays_of_registers C1dev = Except.ok
      { C1dev with peripherals := [{ C1p with registers :=
          [C1plain "BEFORE", mkExpandedReg C1t "CTRL0" 0, mkExpandedReg C1t "CTRL1" 4,
           C1plain "AFTER"] }] } := by
  have h := C1_array_expansion C1dev C1p [C1plain "BEFORE"] [C1plain "AFTER"] C1t
    2 4 0 ["0", "1"] "CTRL%s" (fun i => if i = 0 then "CTRL0" else "CTRL1")
    rfl rfl rfl rfl rfl rfl rfl (by decide) (by decide) (by decide) (by decide)
  exact h

/-- C2 amended: when a template's `dim` differs from the length of its
`dim_index`, the transform fails fatally — the failing
`duplicate_array_of_registers` call is an assertion error that produces no
registers — but at the point of failure the template itself has already been
removed from its peripheral's register list (the `del` precedes the call
whose assert fires), so the list is not left unchanged: it reads
`A ++ B'`, where `A` is the untouched prefix before the template and `B'`
is the suffix after it, which the descending-index loop had already
processed. -/
theorem C2_amended_fatal_expansion (d : SVDDevice) (p : SVDPeripheral)
    (A B B' : List SVDRegister) (t : SVDRegister) (n : Int) (idx : List String)
    (hd : d.peripherals = [p]) (hp : p.registers = A ++ t :: B)
    (hdim : t.dim = some n) (hidx : t.dim_index = some idx)
    (hlen : n ≠ (idx.length : Int))
    (hB : expandRegs B = Except.ok B') :
    duplicate_array_of_registers t = Except.error () ∧
    duplicate_arrays_of_registers d =
      Except.error { d with peripherals := [{ p with registers := A ++ B' }] } := by
  have hdup : duplicate_array_of_registers t = Except.error () := by
    unfold duplicate_array_of_registers
    simp only [hidx, hdim]
    rw [if_neg hlen]
  refine ⟨hdup, ?_⟩
  have htB : expandRegs (t :: B) = Except.error B' := by
    unfold expandRegs
    rw [hB]
    simp only [hdim, Option.isSome_some, if_true, hdup]
  have hAll := expandRegs_append_error (A := A) htB
  unfold duplicate_arrays_of_registers
  rw [hd]
  unfold expandPeriphsLoop
  rw [hp, hAll]

def C2bad : SVDRegister :=
  { name := some "B%s", description := none, address_offset := some 0, size := none,
    access := none, reset_value := none, reset_mask := none, fields := [],
    dim := some 2, dim_increment := some 4, dim_index := some ["0"] }

def C2p : SVDPeripheral :=
  { name := some "P", description := none, prepend_to_name := none,
    base_address := none, address_block := none, interrupts := [],
    registers := [C2bad] }

def C2dev : SVDDevice :=
  { vendor := none, vendor_id := none, name := some "D", version := none,
    description := none, cpu := none, address_unit_bits := none, width := none,
    peripherals := [C2p] }

/-- C2 counterexample: `C2dev` holds one peripheral whose one register
`C2bad` has `dim = 2` but a one-token `dim_index`.  The transform does fail
fatally, but the peripheral's register list observed at the failure is
empty, not the original `[C2bad]` — the template was deleted before the
assertion ran — so the claim that the register lists are unchanged at the
point of failure is false. -/
theorem C2_counterexample :
    duplicate_arrays_of_registers C2dev =
      Except.error { C2dev with peripherals := [{ C2p with registers := [] }] } ∧
    C2dev.peripherals = [C2p] ∧
    C2p.registers = [C2bad] ∧
    [{ C2p with registers := ([] : List SVDRegister) }] ≠ C2dev.peripherals := by
  refine ⟨by decide, rfl, rfl, by decide⟩

/-- C2 witness: the amended statement instantiated on `C2dev`: the failing
call produces nothing and the device is left with the template deleted. -/
theorem C2_witness :
    duplicate_array_of_registers C2bad = Except.error () ∧
    duplicate_arrays_of_registers C2dev =
      Except.error { C2dev with peripherals := [{ C2p with registers := [] }] } := by
  have h := C2_amended_fatal_expansion C2dev C2p [] [] [] C2bad 2 ["0"]
    rfl rfl rfl rfl (by decide) rfl
  simpa using h

/-- The per-register condition under which `remove_reserved` behaves
predictably: the register's name is present and either contains
"reserved", or it does not and no field name of the register contains
"reserved" (avoiding the deletion-while-iterating paths). -/
def regQuiet (r : SVDRegister) : Prop :=
  (r.name.map hasReservedSub = some true) ∨
  (r.name.map hasReservedSub = some false ∧
    ∀ fld ∈ r.fields, fld.name.map hasReservedSub = some false)

theorem revRange_succ (k : Nat) : revRange (k + 1) = k :: revRange k := by
  unfold revRange
  rw [List.range_succ, List.reverse_append]
  rfl

theorem rrInner_clean (i : Nat) (L : List SVDRegister) (r : SVDRegister)
    (hL : L[i]? = some r)
    (hclean : ∀ fld ∈ r.fields, fld.name.map hasReservedSub = some false) :
    ∀ fs, (∀ f ∈ fs, f < r.fields.length) → rrInner i fs L = Except.ok L := by
  intro fs
  induction fs with
  | nil => intro _; rfl
  | cons f rest ih =>
    intro hfs
    have hf : f < r.fields.length := hfs f (List.mem_cons_self f rest)
    have hfld := hclean r.fields[f] (List.getElem_mem hf)
    unfold rrInner
    cases hnm : r.fields[f].name with
    | none => rw [hnm] at hfld; exact absurd hfld (by simp)
    | some nm =>
      rw [hnm] at hfld
      have hres : hasReservedSub nm = false := by simpa using hfld
      simp only [hL, List.getElem?_eq_getElem hf, hnm, hres, Bool.false_eq_true, if_false]
      exact ih (fun x hx => hfs x (List.mem_cons_of_mem f hx))

theorem rrOuter_filter : ∀ (k : Nat) (L : List SVDRegister),
    k ≤ L.length →
    (∀ r ∈ L.take k, regQuiet r) →
    rrOuter (revRange k) L = Except.ok
      ((L.take k).filter (fun r => r.name.map hasReservedSub == some false) ++ L.drop k) := by
  intro k
  induction k with
  | zero => intro L _ _; simp [revRange, rrOuter]
  | succ k ih =>
    intro L hk hq
    have hklt : k < L.length := hk
    rw [revRange_succ]
    unfold rrOuter
    simp only [List.getElem?_eq_getElem hklt]
    have hmem_take : L[k] ∈ L.take (k + 1) := by
      rw [List.take_succ, List.getElem?_eq_getElem hklt]
      simp only [Option.toList_some, List.mem_append, List.mem_singleton, or_true]
    have hqk := hq L[k] hmem_take
    have htake_sub : L.take k ⊆ L.take (k + 1) := by
      have h := List.take_sublist k (L.take (k + 1))
      rw [List.take_take] at h
      have hmin : min k (k + 1) = k := by omega
      rw [hmin] at h
      exact h.subset
    rcases hqk with hres | ⟨hclean, hfields⟩
    · obtain ⟨nm, hnm, hrnm⟩ : ∃ nm, L[k].name = some nm ∧ hasReservedSub nm = true := by
        cases hx : L[k].name with
        | none => rw [hx] at hres; exact absurd hres (by simp)
        | some nm => rw [hx] at hres; exact ⟨nm, rfl, by simpa using hres⟩
      simp only [hnm, hrnm, if_true]
      have herase : L.eraseIdx k = L.take k ++ L.drop (k + 1) :=
        List.eraseIdx_eq_take_drop_succ L k
      have hlen' : k ≤ (L.eraseIdx k).length := by
        rw [List.length_eraseIdx]
        simp [hklt]
        omega
      have htk : (L.eraseIdx k).take k = L.take k := by
        rw [herase]
        exact List.take_left' (by simp [List.length_take]; omega)
      have hdk : (L.eraseIdx k).drop k = L.drop (k + 1) := by
        rw [herase]
        exact List.drop_left' (by simp [List.length_take]; omega)
      have hrec := ih (L.eraseIdx k) hlen' (by
        rw [htk]
        intro r hr
        exact hq r (htake_sub hr))
      rw [htk, hdk] at hrec
      rw [hrec]
      have hkf : ((L[k]).name.map hasReservedSub == some false) = false := by
        simp [hnm, hrnm]
      have hfilt : (L.take (k + 1)).filter
          (fun r => r.name.map hasReservedSub == some false) =
          (L.take k).filter (fun r => r.name.map hasReservedSub == some false) := by
        rw [List.take_succ, List.getElem?_eq_getElem hklt]
        simp only [Option.toList_some, List.filter_append, List.filter_cons, hkf,
          List.filter_nil, Bool.false_eq_true, if_false, List.append_nil]
      rw [hfilt]
    · obtain ⟨nm, hnm, hrnm⟩ : ∃ nm, L[k].name = some nm ∧ hasReservedSub nm = false := by
        cases hx : L[k].name with
        | none => rw [hx] at hclean; exact absurd hclean (by simp)
        | some nm => rw [hx] at hclean; exact ⟨nm, rfl, by simpa using hclean⟩
      simp only [hnm, hrnm, Bool.false_eq_true, if_false]
      have hinner := rrInner_clean k L L[k] (List.getElem?_eq_getElem hklt) hfields
        (revRange L[k].fields.length)
        (fun f hf => by
          rw [revRange] at hf
          exact List.mem_range.mp (List.mem_reverse.mp hf))
      simp only [hinner]
      have hrec := ih L (le_of_lt hklt) (fun r hr => hq r (htake_sub hr))
      rw [hrec]
      have hdrop : L.drop k = L[k] :: L.drop (k + 1) := List.drop_eq_getElem_cons hklt
      have hkf : ((L[k]).name.map hasReservedSub == some false) = true := by
        simp [hnm, hrnm]
      have hfilt : (L.take (k + 1)).filter
          (fun r => r.name.map hasReservedSub == some false) =
          (L.take k).filter (fun r => r.name.map hasReservedSub == some false) ++ [L[k]] := by
        rw [List.take_succ, List.getElem?_eq_getElem hklt]
        simp only [Option.toList_some, List.filter_append, List.filter_cons, hkf,
          List.filter_nil, if_true]
      rw [hfilt, hdrop]
      simp

theorem remove_reserved_regs_filter (L : List SVDRegister)
    (h : ∀ r ∈ L, regQuiet r) :
    remove_reserved_regs L = Except.ok
      (L.filter (fun r => r.name.map hasReservedSub == some false)) := by
  unfold remove_reserved_regs
  have := rrOuter_filter L.length L le_rfl (by simpa using h)
  simpa using this

/-- C5: a peripheral whose register list contains exactly one register with
a "reserved" name (here: at an arbitrary position, all other registers
having non-reserved names and non-reserved field names) loses exactly that
register, with the relative order of the remaining registers preserved. -/
theorem C5_reserved_name_removal (d : SVDDevice) (p : SVDPeripheral)
    (A B : List SVDRegister) (rsv : SVDRegister) (rnm : String)
    (hd : d.peripherals = [p]) (hp : p.registers = A ++ rsv :: B)
    (hrsv : rsv.name = some rnm) (hres : hasReservedSub rnm = true)
    (hAB : ∀ r ∈ A ++ B, r.name.map hasReservedSub = some false ∧
        ∀ fld ∈ r.fields, fld.name.map hasReservedSub = some false) :
    remove_reserved d = Except.ok { d with peripherals := [{ p with registers := A ++ B }] } := by
  have hall : ∀ r ∈ A ++ rsv :: B, regQuiet r := by
    intro r hr
    rcases List.mem_append.mp hr with hA | hB
    · have := hAB r (List.mem_append_left B hA)
      exact Or.inr this
    · rcases List.mem_cons.mp hB with rfl | hB2
      · exact Or.inl (by rw [hrsv]; simpa using hres)
      · have := hAB r (List.mem_append_right A hB2)
        exact Or.inr this
  have hfilter := remove_reserved_regs_filter (A ++ rsv :: B) hall
  have hA_keep : A.filter (fun r => r.name.map hasReservedSub == some false) = A := by
    apply List.filter_eq_self.mpr
    intro r hr
    have := (hAB r (List.mem_append_left B hr)).1
    simp [this]
  have hB_keep : B.filter (fun r => r.name.map hasReservedSub == some false) = B := by
    apply List.filter_eq_self.mpr
    intro r hr
    have := (hAB r (List.mem_append_right A hr)).1
    simp [this]
  have hrsv_drop : ((rsv.name.map hasReservedSub) == some false) = false := by
    simp [hrsv, hres]
  have hfilt : (A ++ rsv :: B).filter (fun r => r.name.map hasReservedSub == some false) =
      A ++ B := by
    rw [List.filter_append, List.filter_cons]
    simp only [hrsv_drop, Bool.false_eq_true, if_false]
    rw [hA_keep, hB_keep]
  rw [hfilt] at hfilter
  unfold remove_reserved
  rw [hd]
  unfold rrPeriphsLoop
  rw [hp, hfilter]
  rfl

def C5fld : SVDField :=
  { name := some "F1", description := none, bit_offset := none, bit_width := none,
    access := none, enumerated_values := none }

def C5plain (nm : String) : SVDRegister :=
  { name := some nm, description := none, address_offset := none, size := none,
    access := none, reset_value := none, reset_mask := none, fields := [C5fld],
    dim := none, dim_increment := none, dim_index := none }

def C5p : SVDPeripheral :=
  { name := some "P", description := none, prepend_to_name := none,
    base_address := none, address_block := none, interrupts := [],
    registers := [C5plain "X", C5plain "RESERVED0", C5plain "Y"] }

def C5dev : SVDDevice :=
  { vendor := none, vendor_id := none, name := some "D", version := none,
    description := none, cpu := none, address_unit_bits := none, width := none,
    peripherals := [C5p] }

/-- C5 witness: `RESERVED0` is deleted, `X` and `Y` stay in order. -/
theorem C5_witness :
    remove_reserved C5dev = Except.ok
      { C5dev with peripherals := [{ C5p with registers := [C5plain "X", C5plain "Y"] }] } := by
  have h := C5_reserved_name_removal C5dev C5p [C5plain "X"] [C5plain "Y"]
    (C5plain "RESERVED0") "RESERVED0" rfl rfl rfl (by decide) (by decide)
  simpa using h

def C4fld (nm : String) : SVDField :=
  { name := some nm, description := none, bit_offset := none, bit_width := none,
    access := none, enumerated_values := none }

/-- A register with a non-reserved name whose second field has a reserved
name. -/
def C4reg : SVDRegister :=
  { name := some "CTRL", description := none, address_offset := none, size := none,
    access := none, reset_value := none, reset_mask := none,
    fields := [C4fld "FA", C4fld "RESERVEDB"],
    dim := none, dim_increment := none, dim_index := none }

def C4p : SVDPeripheral :=
  { name := some "P", description := none, prepend_to_name := none,
    base_address := none, address_block := none, interrupts := [],
    registers := [C4reg] }

def C4dev : SVDDevice :=
  { vendor := none, vendor_id := none, name := some "D", version := none,
    description := none, cpu := none, address_unit_bits := none, width := none,
    peripherals := [C4p] }

/-- C4: on a peripheral whose only register `CTRL` has fields
`[FA, RESERVEDB]`, the reserved field is found at field index 1, the
register is deleted, and the loop then evaluates `registers[0].fields[0]`
on the now-empty list — an IndexError.  The transform aborts with the
register deleted instead of completing the claimed clean removal. -/
theorem C4_reserved_field_crash :
    remove_reserved C4dev =
      Except.error { C4dev with peripherals := [{ C4p with registers := [] }] } := by
  decide
